import Mathlib

/-!
Verification of the PixelForge batch image resizer.

We shallowly embed the pure geometry functions (`next_multiple_of_4`,
`compute_new_size_resize_mode`, the Google Play pad/crop/stretch placement
math), the per-file save/backup logic, and the worker's sequential run loop
(counters and emitted log/progress/done events).  Python floats are embedded
as exact rationals, and Python's `round` (round half to even) is modelled by
`pyRound`.  Python's `%` on integers coincides with `Int.emod`, and `//`
with `Int.fdiv`.
-/

/-- Python `round` on a rational value: round half to even. -/
def pyRound (q : ℚ) : ℤ :=
  if q - (⌊q⌋ : ℚ) < 1/2 then ⌊q⌋
  else if (1 : ℚ)/2 < q - (⌊q⌋ : ℚ) then ⌊q⌋ + 1
  else if ⌊q⌋ % 2 = 0 then ⌊q⌋ else ⌊q⌋ + 1

/-- `pyRound` is the identity on integer-valued rationals. -/
lemma pyRound_intCast (n : ℤ) : pyRound ((n : ℚ)) = n := by
  simp [pyRound]

/-- `next_multiple_of_4` from the source: `r = n % 4; n if r == 0 else n + (4 - r)`. -/
def next_multiple_of_4 (n : ℤ) : ℤ :=
  let r := n % 4
  if r = 0 then n else n + (4 - r)

/-- `compute_new_size_resize_mode` from the source.  `ratio = width / float(target_w)`,
`new_h = max(1, int(round(height / ratio)))`. -/
def compute_new_size_resize_mode (width height : ℤ) (target_w : Option ℤ)
    (enforce_mult4 allow_upscale : Bool) : ℤ × ℤ :=
  let wh : ℤ × ℤ :=
    match target_w with
    | none => (width, height)
    | some t =>
      if t > 0 then
        if width > t ∨ (allow_upscale = true ∧ width < t) then
          let ratio : ℚ := (width : ℚ) / (t : ℚ)
          (t, max 1 (pyRound ((height : ℚ) / ratio)))
        else (width, height)
      else (width, height)
  if enforce_mult4 then (next_multiple_of_4 wh.1, next_multiple_of_4 wh.2)
  else wh

/-- `compute_new_size_mult4_only` from the source. -/
def compute_new_size_mult4_only (width height : ℤ) : ℤ × ℤ :=
  (next_multiple_of_4 width, next_multiple_of_4 height)

/-- Spec-side restatement of `computeResizeSize` (from the spec's words, to be
compared with the source embedding): rescale to `newW = targetWidth`,
`newH = round(h * targetWidth / w)` floored at 1, when the target is set and
positive and the source is wider than target or upscaling is allowed and the
source is narrower; otherwise unchanged; then optional multiple-of-4 rounding. -/
def computeResizeSize_spec (width height : ℤ) (target_w : Option ℤ)
    (enforce_mult4 allow_upscale : Bool) : ℤ × ℤ :=
  let wh : ℤ × ℤ :=
    match target_w with
    | none => (width, height)
    | some t =>
      if t > 0 ∧ (width > t ∨ (allow_upscale = true ∧ width < t)) then
        (t, max 1 (pyRound ((height : ℚ) * (t : ℚ) / (width : ℚ))))
      else (width, height)
  if enforce_mult4 then (next_multiple_of_4 wh.1, next_multiple_of_4 wh.2)
  else wh

/-! ## Google Play assets geometry (source lines 163–202 and `_pad_to_canvas`) -/

/-- The 1px tolerance from the source: `abs(dw) <= 1 and abs(dh) <= 1` with
`dw = target_w - src_w`, `dh = target_h - src_h`. -/
def within_one (src_w src_h target_w target_h : ℤ) : Prop :=
  |target_w - src_w| ≤ 1 ∧ |target_h - src_h| ≤ 1

instance (a b c d : ℤ) : Decidable (within_one a b c d) :=
  inferInstanceAs (Decidable (_ ∧ _))

/-- Cover-fit scale of the "crop" branch: `scale = max(target_w / src_w, target_h / src_h)`. -/
def gp_crop_scale (src_w src_h target_w target_h : ℤ) : ℚ :=
  max ((target_w : ℚ) / (src_w : ℚ)) ((target_h : ℚ) / (src_h : ℚ))

/-- Contain-fit scale of the "pad" branch: `scale = min(target_w / src_w, target_h / src_h)`. -/
def gp_pad_scale (src_w src_h target_w target_h : ℤ) : ℚ :=
  min ((target_w : ℚ) / (src_w : ℚ)) ((target_h : ℚ) / (src_h : ℚ))

/-- The proportional rescale of the crop/pad branches:
`new_w = max(1, int(round(src_w * scale)))` and likewise for the height. -/
def scaled_size (scale : ℚ) (src_w src_h : ℤ) : ℤ × ℤ :=
  (max 1 (pyRound ((src_w : ℚ) * scale)), max 1 (pyRound ((src_h : ℚ) * scale)))

/-- Source line 175: for method "stretch" the image is resized directly to
`(target_w, target_h)`; the source dimensions do not enter. -/
def gp_stretch_out (_src_w _src_h target_w target_h : ℤ) : ℤ × ℤ :=
  (target_w, target_h)

/-- The "crop" branch, source lines 176–186: the dimensions after the
conditional cover-fit rescale, and the centre-crop origin
`left = max(0, (im.width - target_w) // 2)`, `top = max(0, (im.height - target_h) // 2)`
(Python `//` is floor division, `Int.fdiv`).  The crop box is then
`(left, top, left + target_w, top + target_h)`, so the output is exactly
`(target_w, target_h)`. -/
def gp_crop_geom (src_w src_h target_w target_h : ℤ) : (ℤ × ℤ) × ℤ × ℤ :=
  let scale := gp_crop_scale src_w src_h target_w target_h
  let wh : ℤ × ℤ :=
    if scale ≠ 1 ∧ ¬ within_one src_w src_h target_w target_h then
      scaled_size scale src_w src_h
    else (src_w, src_h)
  (wh, max 0 ((wh.1 - target_w).fdiv 2), max 0 ((wh.2 - target_h).fdiv 2))

/-- The rescale step of the "pad" branch, source lines 187–193. -/
def gp_pad_scaled (src_w src_h target_w target_h : ℤ) : ℤ × ℤ :=
  let scale := gp_pad_scale src_w src_h target_w target_h
  if scale ≠ 1 ∧ ¬ within_one src_w src_h target_w target_h then
    scaled_size scale src_w src_h
  else (src_w, src_h)

/-- Spec-side restatement of the crop plan (from the spec's words, to be compared
with the source embedding `gp_crop_geom`): the proportional rescale to
`(round(srcW*scale), round(srcH*scale))`, each floored at 1, is skipped when both
dimension deltas are within 1px; crop origin by floor division as in the claim. -/
def cropPlan_spec (src_w src_h target_w target_h : ℤ) : (ℤ × ℤ) × ℤ × ℤ :=
  let scale := gp_crop_scale src_w src_h target_w target_h
  let wh : ℤ × ℤ :=
    if within_one src_w src_h target_w target_h then (src_w, src_h)
    else scaled_size scale src_w src_h
  (wh, max 0 ((wh.1 - target_w).fdiv 2), max 0 ((wh.2 - target_h).fdiv 2))

/-- Spec-side restatement of the pad rescale (from the spec's words). -/
def padScaled_spec (src_w src_h target_w target_h : ℤ) : ℤ × ℤ :=
  let scale := gp_pad_scale src_w src_h target_w target_h
  if within_one src_w src_h target_w target_h then (src_w, src_h)
  else scaled_size scale src_w src_h

/-- The placement computed by `_pad_to_canvas` (source lines 215–227) on an image of
size `(imW, imH)`: the background colour actually used, whether the image is
converted to RGBA before pasting, the paste position, and whether the paste uses
the image itself as alpha mask.  `im_mode_RGBA` embeds `im.mode == "RGBA"` and
`im_has_A` embeds `"A" in im.getbands()`. -/
structure PadCanvas where
  bg : ℤ × ℤ × ℤ × ℤ
  convertRGBA : Bool
  x : ℤ
  y : ℤ
  maskUsed : Bool
deriving DecidableEq

def pad_to_canvas (imW imH : ℤ) (im_mode_RGBA im_has_A : Bool) (tw th : ℤ)
    (bg_rgba : Option (ℤ × ℤ × ℤ × ℤ)) : PadCanvas :=
  let bg := match bg_rgba with
    | none => (255, 255, 255, if im_has_A then (0 : ℤ) else 255)
    | some c => c
  let conv := !im_mode_RGBA && decide (bg.2.2.2 < 255)
  { bg := bg, convertRGBA := conv,
    x := (tw - imW).fdiv 2, y := (th - imH).fdiv 2,
    maskUsed := im_mode_RGBA || conv }

/-! ## The worker run loop (source lines 106–213)

The per-file image work inside the `try` block is abstracted into an outcome
(the file is changed and saved, left unchanged, or raises an exception whose
text is `errMsg`); the loop structure, the PSD-without-decoder branch, the
counters and every emitted log/progress/done callback are translated from the
source.  Mode-specific success/skip log texts are collapsed to a single form,
since no claim inspects them. -/

inductive FOutcome
  | changed
  | unchanged
  | error
deriving DecidableEq

structure SrcFile where
  path : String
  ext : String
  outcome : FOutcome
  errMsg : String
deriving DecidableEq

structure Counters where
  processed : ℕ
  changed : ℕ
  skipped : ℕ
  errors : ℕ
deriving DecidableEq

inductive Event
  | log (msg : String)
  | progress (idx total : ℕ)
  | done (processed changed skipped errors : ℕ)
deriving DecidableEq

/-- Source line 121: `ext == ".psd" and not _HAS_PSD_TOOLS`. -/
def psd_blocked (hasPsdTools : Bool) (f : SrcFile) : Bool :=
  f.ext == ".psd" && !hasPsdTools

/-- One iteration of the loop body (source lines 119–210): the events emitted for
this file and the updated counters.  On the PSD-blocked branch the progress
callback fires before `continue`; on every other branch it fires after the
`try`/`except`.  On the exception branch only `errors` is incremented —
`processed += 1` (line 204) is skipped by the raised exception. -/
def stepFile (hasPsdTools : Bool) (total idx : ℕ) (f : SrcFile) (c : Counters) :
    List Event × Counters :=
  if psd_blocked hasPsdTools f then
    ([Event.log ("Skipping PSD (psd-tools not installed): " ++ f.path),
      Event.progress idx total],
     { c with skipped := c.skipped + 1, processed := c.processed + 1 })
  else
    match f.outcome with
    | FOutcome.changed =>
        ([Event.log ("changed: " ++ f.path), Event.progress idx total],
         { c with changed := c.changed + 1, processed := c.processed + 1 })
    | FOutcome.unchanged =>
        ([Event.log ("Skip: " ++ f.path), Event.progress idx total],
         { c with skipped := c.skipped + 1, processed := c.processed + 1 })
    | FOutcome.error =>
        ([Event.log ("ERROR on " ++ f.path ++ ": " ++ f.errMsg),
          Event.progress idx total],
         { c with errors := c.errors + 1 })

def runFiles (hasPsdTools : Bool) (total : ℕ) :
    List SrcFile → ℕ → Counters → List Event × Counters
  | [], _, c => ([], c)
  | f :: rest, idx, c =>
      let s := stepFile hasPsdTools total idx f c
      let r := runFiles hasPsdTools total rest (idx + 1) s.2
      (s.1 ++ r.1, r.2)

/-- `ResizerWorker.run`: the full sequence of emitted events and the final
counters. -/
def runWorker (hasPsdTools : Bool) (files : List SrcFile) : List Event × Counters :=
  let total := files.length
  if total = 0 then
    ([Event.log "No supported images found.", Event.done 0 0 0 0],
     ⟨0, 0, 0, 0⟩)
  else
    let r := runFiles hasPsdTools total files 1 ⟨0, 0, 0, 0⟩
    (Event.log ("Found " ++ toString total ++ " image(s). Starting...") :: r.1 ++
       [Event.log "Done.",
        Event.done r.2.processed r.2.changed r.2.skipped r.2.errors],
     r.2)

def progressOf : Event → Option (ℕ × ℕ)
  | Event.progress i t => some (i, t)
  | _ => none

def isDoneEv : Event → Bool
  | Event.done _ _ _ _ => true
  | _ => false

/-- A file whose processing raises: not on the PSD-blocked branch, and the
abstracted body outcome is an exception. -/
def isErrFile (hasPsdTools : Bool) (f : SrcFile) : Bool :=
  !psd_blocked hasPsdTools f && decide (f.outcome = FOutcome.error)

def isChangedFile (hasPsdTools : Bool) (f : SrcFile) : Bool :=
  !psd_blocked hasPsdTools f && decide (f.outcome = FOutcome.changed)

/-- A file counted as skipped: the PSD-blocked branch, or an unchanged size. -/
def isSkipFile (hasPsdTools : Bool) (f : SrcFile) : Bool :=
  psd_blocked hasPsdTools f || decide (f.outcome = FOutcome.unchanged)

/-! ## Saving and backups (`_save_image`, source lines 229–261)

The filesystem is a map from paths to file contents; image encoding is abstract
(the saved bytes are `content`).  `bakWriteOk` embeds whether the byte-copy at
lines 235–236 raises. -/

def fsUpdate (fs : String → Option String) (p : String) (v : Option String) :
    String → Option String :=
  fun q => if q = p then v else fs q

/-- `os.path.splitext(path)[0]`: the path without its last extension. -/
def splitext_base (p : String) : String :=
  match p.data.reverse.findIdx? (fun c => c = '.') with
  | none => p
  | some r => String.mk (p.data.take (p.data.length - 1 - r))

structure SaveResult where
  fs : String → Option String
  logs : List String

/-- `_save_image`: when backups are enabled and no file exists at `path + ".bak"`,
copy the original bytes there (a failed copy — source missing or a raised write
error — is logged and ignored); then write the new content, either to
`base + ".png"` when `force_png` or over `path` otherwise. -/
def save_image (backup : Bool) (bakWriteOk : Bool) (fs : String → Option String)
    (path : String) (content : String) (force_png : Bool) : SaveResult :=
  let bak := path ++ ".bak"
  let step1 : (String → Option String) × List String :=
    if backup then
      if (fs bak).isNone then
        match fs path, bakWriteOk with
        | some orig, true => (fsUpdate fs bak (some orig), [])
        | _, _ => (fs, ["Backup failed, proceeding anyway"])
      else (fs, [])
    else (fs, [])
  if force_png then
    { fs := fsUpdate step1.1 (splitext_base path ++ ".png") (some content),
      logs := step1.2 }
  else
    { fs := fsUpdate step1.1 path (some content), logs := step1.2 }

/-! ## Helper lemmas -/

lemma scaled_size_one (src_w src_h : ℤ) (hw : 1 ≤ src_w) (hh : 1 ≤ src_h) :
    scaled_size 1 src_w src_h = (src_w, src_h) := by
  unfold scaled_size
  rw [mul_one, mul_one, pyRound_intCast, pyRound_intCast,
    max_eq_right hw, max_eq_right hh]

/-! ## Claim theorems -/

/-- C10: `next_multiple_of_4` returns `n` when `4 ∣ n`, otherwise the next
multiple of 4 above `n`; it is idempotent and `next_multiple_of_4 n - n ∈ {0,1,2,3}`. -/
theorem next_multiple_of_4_props (n : ℤ) (hn : 0 ≤ n) :
    (n % 4 = 0 → next_multiple_of_4 n = n) ∧
    (next_multiple_of_4 n) % 4 = 0 ∧
    n ≤ next_multiple_of_4 n ∧
    next_multiple_of_4 (next_multiple_of_4 n) = next_multiple_of_4 n ∧
    (next_multiple_of_4 n - n = 0 ∨ next_multiple_of_4 n - n = 1 ∨
      next_multiple_of_4 n - n = 2 ∨ next_multiple_of_4 n - n = 3) := by
  simp only [next_multiple_of_4]
  split_ifs <;> omega

/-- Witness for C10 at `n = 7`. -/
theorem next_multiple_of_4_props_witness :
    ((7 : ℤ) % 4 = 0 → next_multiple_of_4 7 = 7) ∧
    (next_multiple_of_4 7) % 4 = 0 ∧
    (7 : ℤ) ≤ next_multiple_of_4 7 ∧
    next_multiple_of_4 (next_multiple_of_4 7) = next_multiple_of_4 7 ∧
    (next_multiple_of_4 7 - 7 = 0 ∨ next_multiple_of_4 7 - 7 = 1 ∨
      next_multiple_of_4 7 - 7 = 2 ∨ next_multiple_of_4 7 - 7 = 3) :=
  next_multiple_of_4_props 7 (by decide)

/-- C1: `compute_new_size_resize_mode` agrees with the spec's description
`computeResizeSize_spec` (unchanged unless the target is set, positive, and the
width is above it or upscaling applies; otherwise `newW = targetW`,
`newH = max(1, round(h*targetW/w))`; then optional multiple-of-4 rounding), and
the two concrete examples from the spec hold. -/
theorem compute_resize_refines_spec (w h : ℤ) (hw : 1 ≤ w) (hh : 1 ≤ h)
    (t : Option ℤ) (e u : Bool) :
    compute_new_size_resize_mode w h t e u = computeResizeSize_spec w h t e u ∧
    compute_new_size_resize_mode 100 50 (some 50) false false = (50, 25) ∧
    compute_new_size_resize_mode 100 50 (some 50) true false = (52, 28) := by
  refine ⟨?_, ?_, ?_⟩
  · unfold compute_new_size_resize_mode computeResizeSize_spec
    cases t with
    | none => rfl
    | some t =>
        by_cases h1 : t > 0
        · by_cases h2 : w > t ∨ (u = true ∧ w < t)
          · simp [h1, h2, div_div_eq_mul_div]
          · simp [h1, h2]
        · simp [h1]
  · norm_num [compute_new_size_resize_mode, pyRound, next_multiple_of_4]
  · norm_num [compute_new_size_resize_mode, pyRound, next_multiple_of_4]

/-- Witness for C1 at `w = 100`, `h = 50`, `t = some 50`. -/
theorem compute_resize_refines_spec_witness :
    compute_new_size_resize_mode 100 50 (some 50) true false =
      computeResizeSize_spec 100 50 (some 50) true false ∧
    compute_new_size_resize_mode 100 50 (some 50) false false = (50, 25) ∧
    compute_new_size_resize_mode 100 50 (some 50) true false = (52, 28) :=
  compute_resize_refines_spec 100 50 (by decide) (by decide) (some 50) true false

/-- C2: for "stretch" the plan resizes directly to `(targetW, targetH)`; for
"crop" the source plan (cover-fit scale, rescale unless `scale == 1` or within
1px, centre-crop origin by floor division) agrees with the spec's description
`cropPlan_spec` (rescale skipped exactly on the 1px tolerance); and the concrete
400×800 → 512×512 example: scale 1.28, scaled to 512×1024, crop origin (0, 256)
with 256px also left below. -/
theorem gp_crop_stretch_plan_spec (sw sh tw th : ℤ) (hw : 1 ≤ sw) (hh : 1 ≤ sh) :
    gp_stretch_out sw sh tw th = (tw, th) ∧
    gp_crop_geom sw sh tw th = cropPlan_spec sw sh tw th ∧
    gp_crop_scale 400 800 512 512 = 1.28 ∧
    gp_crop_geom 400 800 512 512 = ((512, 1024), 0, 256) ∧
    (gp_crop_geom 400 800 512 512).1.2 - 512 - (gp_crop_geom 400 800 512 512).2.2
      = 256 := by
  have hsc : gp_crop_scale 400 800 512 512 = 1.28 := by
    norm_num [gp_crop_scale, max_def]
  have hgeom : gp_crop_geom 400 800 512 512 = ((512, 1024), 0, 256) := by
    have hin : ¬ within_one 400 800 512 512 := by decide
    have hs1 : (1.28 : ℚ) ≠ 1 := by norm_num
    have hss : scaled_size 1.28 400 800 = (512, 1024) := by
      unfold scaled_size
      norm_num [pyRound]
    simp only [gp_crop_geom, hsc]
    rw [if_pos ⟨hs1, hin⟩, hss]
    decide
  refine ⟨rfl, ?_, hsc, hgeom, by rw [hgeom]; decide⟩
  unfold gp_crop_geom cropPlan_spec
  by_cases hin : within_one sw sh tw th
  · simp [hin]
  · by_cases hs : gp_crop_scale sw sh tw th = 1
    · simp [hin, hs, scaled_size_one sw sh hw hh]
    · simp [hin, hs]

/-- Witness for C2 at a 100×100 source and 512×512 target. -/
theorem gp_crop_stretch_plan_spec_witness :
    gp_stretch_out 100 100 512 512 = (512, 512) ∧
    gp_crop_geom 100 100 512 512 = cropPlan_spec 100 100 512 512 ∧
    gp_crop_scale 400 800 512 512 = 1.28 ∧
    gp_crop_geom 400 800 512 512 = ((512, 1024), 0, 256) ∧
    (gp_crop_geom 400 800 512 512).1.2 - 512 - (gp_crop_geom 400 800 512 512).2.2
      = 256 :=
  gp_crop_stretch_plan_spec 100 100 512 512 (by decide) (by decide)

/-- C3: the pad plan (contain-fit scale, rescale unless `scale == 1` or within
1px) agrees with the spec's description `padScaled_spec`; the scaled image is
centred at `((targetW - scaledW)//2, (targetH - scaledH)//2)`; the default
background is transparent white for a source with an alpha band and opaque
white otherwise; alpha compositing is used exactly when the image is RGBA or
the background is translucent; and the concrete 800×400 → 512×512 example:
scale 0.64, scaled to 512×256, padded by 128px above and below. -/
theorem gp_pad_plan_spec (sw sh tw th imW imH : ℤ) (hw : 1 ≤ sw) (hh : 1 ≤ sh)
    (rgba hasA : Bool) (bg : Option (ℤ × ℤ × ℤ × ℤ)) :
    gp_pad_scaled sw sh tw th = padScaled_spec sw sh tw th ∧
    (pad_to_canvas imW imH rgba hasA tw th bg).x = (tw - imW).fdiv 2 ∧
    (pad_to_canvas imW imH rgba hasA tw th bg).y = (th - imH).fdiv 2 ∧
    (pad_to_canvas imW imH rgba true tw th none).bg = (255, 255, 255, 0) ∧
    (pad_to_canvas imW imH rgba false tw th none).bg = (255, 255, 255, 255) ∧
    (pad_to_canvas imW imH rgba hasA tw th bg).maskUsed =
      (rgba || decide ((pad_to_canvas imW imH rgba hasA tw th bg).bg.2.2.2 < 255)) ∧
    gp_pad_scale 800 400 512 512 = 0.64 ∧
    gp_pad_scaled 800 400 512 512 = (512, 256) ∧
    (pad_to_canvas 512 256 rgba hasA 512 512 bg).y = 128 ∧
    512 - (gp_pad_scaled 800 400 512 512).2 -
        (pad_to_canvas 512 256 rgba hasA 512 512 bg).y = 128 := by
  have hps : gp_pad_scaled 800 400 512 512 = (512, 256) := by
    have hsc : gp_pad_scale 800 400 512 512 = 0.64 := by
      norm_num [gp_pad_scale, min_def]
    have hin : ¬ within_one 800 400 512 512 := by decide
    have hs1 : (0.64 : ℚ) ≠ 1 := by norm_num
    have hss : scaled_size 0.64 800 400 = (512, 256) := by
      unfold scaled_size
      norm_num [pyRound]
    simp only [gp_pad_scaled, hsc]
    rw [if_pos ⟨hs1, hin⟩, hss]
  have hy : (pad_to_canvas 512 256 rgba hasA 512 512 bg).y = 128 := by
    simp only [pad_to_canvas]
    decide
  refine ⟨?_, rfl, rfl, by simp [pad_to_canvas], by simp [pad_to_canvas],
    ?_, by norm_num [gp_pad_scale, min_def], hps, hy, by rw [hps, hy]; decide⟩
  · unfold gp_pad_scaled padScaled_spec
    by_cases hin : within_one sw sh tw th
    · simp [hin]
    · by_cases hs : gp_pad_scale sw sh tw th = 1
      · simp [hin, hs, scaled_size_one sw sh hw hh]
      · simp [hin, hs]
  · cases rgba <;> simp [pad_to_canvas]

/-- Witness for C3 at a 100×100 source, 512×512 target, 200×100 pasted image. -/
theorem gp_pad_plan_spec_witness :
    gp_pad_scaled 100 100 512 512 = padScaled_spec 100 100 512 512 ∧
    (pad_to_canvas 200 100 true false 512 512 none).x = ((512 : ℤ) - 200).fdiv 2 ∧
    (pad_to_canvas 200 100 true false 512 512 none).y = ((512 : ℤ) - 100).fdiv 2 ∧
    (pad_to_canvas 200 100 true true 512 512 none).bg = (255, 255, 255, 0) ∧
    (pad_to_canvas 200 100 true false 512 512 none).bg = (255, 255, 255, 255) ∧
    (pad_to_canvas 200 100 true false 512 512 none).maskUsed =
      (true || decide ((pad_to_canvas 200 100 true false 512 512 none).bg.2.2.2 < 255)) ∧
    gp_pad_scale 800 400 512 512 = 0.64 ∧
    gp_pad_scaled 800 400 512 512 = (512, 256) ∧
    (pad_to_canvas 512 256 true false 512 512 none).y = 128 ∧
    512 - (gp_pad_scaled 800 400 512 512).2 -
        (pad_to_canvas 512 256 true false 512 512 none).y = 128 :=
  gp_pad_plan_spec 100 100 512 512 200 100 (by decide) (by decide) true false none

/-! ## Run-loop lemmas -/

lemma runFiles_counters (hp : Bool) (total : ℕ) (files : List SrcFile)
    (idx : ℕ) (c : Counters) :
    (runFiles hp total files idx c).2 =
      ⟨c.processed + ((files.filter (isChangedFile hp)).length +
          (files.filter (isSkipFile hp)).length),
        c.changed + (files.filter (isChangedFile hp)).length,
        c.skipped + (files.filter (isSkipFile hp)).length,
        c.errors + (files.filter (isErrFile hp)).length⟩ := by
  induction files generalizing idx c with
  | nil => simp [runFiles]
  | cons f rest ih =>
      simp only [runFiles, List.filter_cons]
      rw [ih]
      by_cases hb : psd_blocked hp f = true
      · simp [stepFile, hb, isChangedFile, isSkipFile, isErrFile, Counters.mk.injEq]
        omega
      · cases ho : f.outcome <;>
          simp [stepFile, hb, isChangedFile, isSkipFile, isErrFile, ho,
            Counters.mk.injEq] <;>
          omega

lemma stepFile_progress (hp : Bool) (total idx : ℕ) (f : SrcFile) (c : Counters) :
    (stepFile hp total idx f c).1.filterMap progressOf = [(idx, total)] := by
  by_cases hb : psd_blocked hp f = true
  · simp [stepFile, hb, progressOf]
  · cases ho : f.outcome <;> simp [stepFile, hb, ho, progressOf]

lemma runFiles_progress (hp : Bool) (total : ℕ) (files : List SrcFile)
    (idx : ℕ) (c : Counters) :
    (runFiles hp total files idx c).1.filterMap progressOf =
      (List.range' idx files.length).map (fun i => (i, total)) := by
  induction files generalizing idx c with
  | nil => simp [runFiles]
  | cons f rest ih =>
      simp only [runFiles, List.filterMap_append, stepFile_progress, ih,
        List.length_cons]
      rw [List.range'_succ]
      simp

lemma runFiles_no_done (hp : Bool) (total : ℕ) (files : List SrcFile)
    (idx : ℕ) (c : Counters) :
    (runFiles hp total files idx c).1.filter isDoneEv = [] := by
  induction files generalizing idx c with
  | nil => simp [runFiles]
  | cons f rest ih =>
      simp only [runFiles, List.filter_append, ih, List.append_nil]
      by_cases hb : psd_blocked hp f = true
      · simp [stepFile, hb, isDoneEv]
      · cases ho : f.outcome <;> simp [stepFile, hb, ho, isDoneEv]

lemma runFiles_err_log (hp : Bool) (total : ℕ) (files : List SrcFile) (f : SrcFile) :
    ∀ (idx : ℕ) (c : Counters), f ∈ files → isErrFile hp f = true →
      Event.log ("ERROR on " ++ f.path ++ ": " ++ f.errMsg) ∈
        (runFiles hp total files idx c).1 := by
  induction files with
  | nil => intro idx c hf _; cases hf
  | cons g rest ih =>
      intro idx c hf he
      have hmem := List.mem_cons.mp hf
      simp only [runFiles, List.mem_append]
      rcases hmem with hgf | hrest
      · left
        subst hgf
        have h' := he
        simp only [isErrFile, Bool.and_eq_true, Bool.not_eq_true',
          decide_eq_true_eq] at h'
        obtain ⟨hb, ho⟩ := h'
        simp [stepFile, hb, ho]
      · right
        exact ih (idx + 1) _ hrest he

lemma count_partition (hp : Bool) (files : List SrcFile) :
    (files.filter (isChangedFile hp)).length + (files.filter (isSkipFile hp)).length +
      (files.filter (isErrFile hp)).length = files.length := by
  induction files with
  | nil => simp
  | cons f rest ih =>
      by_cases hb : psd_blocked hp f = true
      · simp only [List.filter_cons, List.length_cons]
        simp [isChangedFile, isSkipFile, isErrFile, hb]
        omega
      · cases ho : f.outcome <;>
          · simp only [List.filter_cons, List.length_cons]
            simp [isChangedFile, isSkipFile, isErrFile, hb, ho]
            omega

/-- C5: over a non-empty file list the run emits exactly the progress sequence
`(1, total), (2, total), ..., (total, total)` — one 1-based event per file, in
order, with the total fixed — on success, skip (including the PSD-without-decoder
branch) and error alike. -/
theorem run_progress_sequence (hp : Bool) (files : List SrcFile) (hne : files ≠ []) :
    (runWorker hp files).1.filterMap progressOf =
      (List.range' 1 files.length).map (fun i => (i, files.length)) := by
  have hlen : files.length ≠ 0 := fun h => hne (List.length_eq_zero.mp h)
  simp only [runWorker, if_neg hlen]
  simp [List.filterMap_append, progressOf, runFiles_progress]

/-- A concrete three-file run used by the witnesses: one changed file, one
PSD file without the decoder, one file whose processing raises. -/
def sampleFiles : List SrcFile :=
  [⟨"a.png", ".png", FOutcome.changed, ""⟩,
   ⟨"b.psd", ".psd", FOutcome.changed, ""⟩,
   ⟨"c.png", ".png", FOutcome.error, "boom"⟩]

/-- Witness for C5: the three-file run emits exactly (1,3), (2,3), (3,3). -/
theorem run_progress_sequence_witness :
    (runWorker false sampleFiles).1.filterMap progressOf =
      (List.range' 1 sampleFiles.length).map (fun i => (i, sampleFiles.length)) :=
  run_progress_sequence false sampleFiles (List.cons_ne_nil _ _)

/-- C4: per-file exceptions are isolated.  Over any non-empty run: the `done`
callback fires exactly once, with the final counters; a "Done." log line is
emitted; the error counter equals the number of files whose processing raised;
each such file is logged with its path and error detail; and every file still
gets its progress event (the run is not aborted). -/
theorem run_error_isolation (hp : Bool) (files : List SrcFile) (hne : files ≠ []) :
    (runWorker hp files).1.filter isDoneEv =
      [Event.done (runWorker hp files).2.processed (runWorker hp files).2.changed
        (runWorker hp files).2.skipped (runWorker hp files).2.errors] ∧
    Event.log "Done." ∈ (runWorker hp files).1 ∧
    (runWorker hp files).2.errors = (files.filter (isErrFile hp)).length ∧
    (∀ f ∈ files, isErrFile hp f = true →
      Event.log ("ERROR on " ++ f.path ++ ": " ++ f.errMsg) ∈ (runWorker hp files).1) ∧
    ((runWorker hp files).1.filterMap progressOf).length = files.length := by
  have hlen : files.length ≠ 0 := fun h => hne (List.length_eq_zero.mp h)
  simp only [runWorker, if_neg hlen]
  refine ⟨?_, ?_, ?_, ?_, ?_⟩
  · simp [List.filter_cons, List.filter_append, runFiles_no_done, isDoneEv]
  · simp
  · rw [runFiles_counters]
    simp
  · intro f hf he
    exact List.mem_append_left _
      (List.mem_cons_of_mem _
        (runFiles_err_log hp files.length files f 1 ⟨0, 0, 0, 0⟩ hf he))
  · simp [List.filterMap_append, progressOf, runFiles_progress]

/-- Witness for C4 on the concrete three-file run. -/
theorem run_error_isolation_witness :
    (runWorker false sampleFiles).1.filter isDoneEv =
      [Event.done (runWorker false sampleFiles).2.processed
        (runWorker false sampleFiles).2.changed
        (runWorker false sampleFiles).2.skipped
        (runWorker false sampleFiles).2.errors] ∧
    Event.log "Done." ∈ (runWorker false sampleFiles).1 ∧
    (runWorker false sampleFiles).2.errors =
      (sampleFiles.filter (isErrFile false)).length ∧
    (∀ f ∈ sampleFiles, isErrFile false f = true →
      Event.log ("ERROR on " ++ f.path ++ ": " ++ f.errMsg) ∈
        (runWorker false sampleFiles).1) ∧
    ((runWorker false sampleFiles).1.filterMap progressOf).length =
      sampleFiles.length :=
  run_error_isolation false sampleFiles (List.cons_ne_nil _ _)

/-- C7: the counters delivered to `onDone` satisfy
`processed == changed + skipped` and `processed + errored == total`; a
PSD file skipped for the missing decoder increments both `skipped` and
`processed`. -/
theorem run_counter_invariants (hp : Bool) (files : List SrcFile) :
    (runWorker hp files).2.processed =
      (runWorker hp files).2.changed + (runWorker hp files).2.skipped ∧
    (runWorker hp files).2.processed + (runWorker hp files).2.errors =
      files.length ∧
    (∀ (total idx : ℕ) (c : Counters) (path msg : String) (o : FOutcome),
      (stepFile false total idx ⟨path, ".psd", o, msg⟩ c).2 =
        { c with skipped := c.skipped + 1, processed := c.processed + 1 }) := by
  refine ⟨?_, ?_, ?_⟩
  · by_cases hlen : files.length = 0
    · simp [runWorker, hlen]
    · simp only [runWorker, if_neg hlen]
      rw [runFiles_counters]
      simp
  · by_cases hlen : files.length = 0
    · simp [runWorker, hlen]
    · simp only [runWorker, if_neg hlen]
      rw [runFiles_counters]
      have := count_partition hp files
      simp only [Nat.zero_add]
      omega
  · intro total idx c path msg o
    simp [stepFile, psd_blocked]

/-- C6: the accounting identity `processed == changed + skipped + errored` fails
on every run containing at least one file whose processing raises, since the
error path counts `errors` without `processed`. -/
theorem run_accounting_identity_fails (hp : Bool) (files : List SrcFile)
    (hex : ∃ f ∈ files, isErrFile hp f = true) :
    ¬ ((runWorker hp files).2.processed =
        (runWorker hp files).2.changed + (runWorker hp files).2.skipped +
          (runWorker hp files).2.errors) := by
  obtain ⟨f, hf, he⟩ := hex
  have hne : files ≠ [] := by rintro rfl; cases hf
  have hlen : files.length ≠ 0 := fun h => hne (List.length_eq_zero.mp h)
  have herr : 0 < (files.filter (isErrFile hp)).length :=
    List.length_pos.mpr (List.ne_nil_of_mem (List.mem_filter.mpr ⟨hf, he⟩))
  simp only [runWorker, if_neg hlen]
  rw [runFiles_counters]
  simp only [Nat.zero_add]
  omega

/-- Witness (and concrete counterexample run) for C6: the three-file run has
`processed = 2`, `changed = 1`, `skipped = 1`, `errors = 1`, violating the
identity. -/
theorem run_accounting_identity_fails_witness :
    ¬ ((runWorker false sampleFiles).2.processed =
        (runWorker false sampleFiles).2.changed +
          (runWorker false sampleFiles).2.skipped +
          (runWorker false sampleFiles).2.errors) :=
  run_accounting_identity_fails false sampleFiles
    ⟨⟨"c.png", ".png", FOutcome.error, "boom"⟩, by decide, by decide⟩

/-- C9: with zero eligible files the run logs "No supported images found.",
calls `done` exactly once with all-zero counters, emits no progress events, and
emits nothing else. -/
theorem run_empty_enumeration (hp : Bool) :
    runWorker hp [] =
      ([Event.log "No supported images found.", Event.done 0 0 0 0], ⟨0, 0, 0, 0⟩) ∧
    (runWorker hp []).1.filterMap progressOf = [] :=
  ⟨rfl, rfl⟩

lemma bak_ne_path (path : String) : path ++ ".bak" ≠ path := by
  intro hcontra
  have hlen := congrArg String.length hcontra
  rw [String.length_append] at hlen
  have h4 : (".bak" : String).length = 4 := rfl
  omega

/-- C8: with backups enabled, the original bytes are copied to `path + ".bak"`
only when no file exists there — an existing backup survives a save untouched,
so a second run keeps the first run's backup — and a failed backup write is
logged while the processed file is still saved. -/
theorem save_backup_props (fs : String → Option String) (path content orig : String)
    (ok : Bool) :
    ((fs (path ++ ".bak")).isSome →
      (save_image true ok fs path content false).fs (path ++ ".bak") =
        fs (path ++ ".bak")) ∧
    (fs (path ++ ".bak") = none → fs path = some orig →
      (save_image true true fs path content false).fs (path ++ ".bak") = some orig) ∧
    (∀ (c2 : String) (ok2 : Bool), fs (path ++ ".bak") = none → fs path = some orig →
      (save_image true ok2 (save_image true true fs path content false).fs path c2
          false).fs (path ++ ".bak") = some orig) ∧
    (fs (path ++ ".bak") = none →
      (save_image true false fs path content false).logs =
        ["Backup failed, proceeding anyway"] ∧
      (save_image true false fs path content false).fs path = some content) := by
  refine ⟨?_, ?_, ?_, ?_⟩
  · intro hs
    have hnone : (fs (path ++ ".bak")).isNone = false := by
      cases hfs : fs (path ++ ".bak") <;> simp [hfs] at hs ⊢
    simp [save_image, hnone, fsUpdate, bak_ne_path path]
  · intro h1 h2
    simp [save_image, h1, h2, fsUpdate, bak_ne_path path]
  · intro c2 ok2 h1 h2
    simp [save_image, h1, h2, fsUpdate, bak_ne_path path]
  · intro h1
    cases hfp : fs path <;> simp [save_image, h1, hfp, fsUpdate]

/-- Concrete filesystems for the C8 witness: one with just the source file,
one that also carries a stale backup. -/
def fs0 : String → Option String :=
  fun q => if q = "img.png" then some "ORIG" else none

def fsA : String → Option String :=
  fun q =>
    if q = "img.png" then some "ORIG"
    else if q = "img.png.bak" then some "OLD" else none

/-- Witness for C8 on the concrete filesystems. -/
theorem save_backup_props_witness :
    ((save_image true true fsA "img.png" "NEW" false).fs ("img.png" ++ ".bak") =
      fsA ("img.png" ++ ".bak")) ∧
    ((save_image true true fs0 "img.png" "NEW" false).fs ("img.png" ++ ".bak") =
      some "ORIG") ∧
    ((save_image true true (save_image true true fs0 "img.png" "NEW" false).fs
        "img.png" "NEW2" false).fs ("img.png" ++ ".bak") = some "ORIG") ∧
    ((save_image true false fs0 "img.png" "NEW" false).logs =
        ["Backup failed, proceeding anyway"] ∧
      (save_image true false fs0 "img.png" "NEW" false).fs "img.png" = some "NEW") :=
  ⟨(save_backup_props fsA "img.png" "NEW" "ORIG" true).1 (by decide),
   (save_backup_props fs0 "img.png" "NEW" "ORIG" true).2.1 (by decide) (by decide),
   (save_backup_props fs0 "img.png" "NEW" "ORIG" true).2.2.1 "NEW2" true
     (by decide) (by decide),
   (save_backup_props fs0 "img.png" "NEW" "ORIG" true).2.2.2 (by decide)⟩
